import Mathlib

/-
Verification of the quantitative-dashboard analytics engine.

Price series are modelled as streams `ℕ → ℚ` (the code's float series; every
computation the claims touch reads only finitely many indices).  Rational
arithmetic models float arithmetic exactly for the field operations the code
performs; `Option` models pandas/numpy NaN where a claim is about NaN.  In ℚ
(and ℝ) division by zero yields 0, which mirrors the code at the degenerate
points the claims touch: there numpy produces NaN, and every NaN comparison is
False, exactly as a comparison against the 0 produced here.
-/

namespace QuantA

/-- rolling(window=w).mean() of `p` evaluated at index `t`: the mean of
`p (t+1-w) .. p t`.  In pandas it is NaN while `t + 1 < w`; the guard is kept in
`momSignal` below, matching np.where over a NaN column. -/
def sma (p : ℕ → ℚ) (w t : ℕ) : ℚ :=
  (((List.range w).map (fun i => p (t + 1 - w + i))).sum) / (w : ℚ)

/-- Signal of `calculate_momentum_strategy_performance`:
np.where(Short_SMA > Long_SMA, 1.0, 0.0).  While either rolling mean is still
NaN (window not yet full) the comparison is False and np.where yields 0.0,
hence the two length guards. -/
def momSignal (p : ℕ → ℚ) (s l t : ℕ) : ℚ :=
  if s ≤ t + 1 ∧ l ≤ t + 1 ∧ sma p l t < sma p s t then 1 else 0

/-- pct_change of the close series.  Index 0 is NaN in the code and dropped by
dropna before any use; the value 0 returned here at index 0 is never used by a
theorem. -/
def ret (p : ℕ → ℚ) : ℕ → ℚ
  | 0 => 0
  | t + 1 => p (t + 1) / p t - 1

/-- Strategy_Returns = Returns * Signal.shift(1).  Index 0 is NaN (shift) in
the code and dropped; see `ret`. -/
def momStratReturn (p : ℕ → ℚ) (s l : ℕ) : ℕ → ℚ
  | 0 => 0
  | t + 1 => ret p (t + 1) * momSignal p s l t

theorem sma_congr (p q : ℕ → ℚ) (w t : ℕ) (h : ∀ i, i ≤ t → p i = q i)
    (hw : w ≤ t + 1) : sma p w t = sma q w t := by
  unfold sma
  congr 1
  congr 1
  refine List.map_congr_left (fun i hi => ?_)
  have hi' : i < w := List.mem_range.mp hi
  exact h _ (by omega)

theorem momSignal_congr (p q : ℕ → ℚ) (s l t : ℕ)
    (h : ∀ i, i ≤ t → p i = q i) :
    momSignal p s l t = momSignal q s l t := by
  unfold momSignal
  by_cases hs : s ≤ t + 1
  · by_cases hl : l ≤ t + 1
    · have h1 := sma_congr p q s t h hs
      have h2 := sma_congr p q l t h hl
      simp only [h1, h2]
    · simp [hl]
  · simp [hs]

/-- True Range of `calculate_adx_components`: max(High-Low, |High-PrevClose|,
|Low-PrevClose|).  At index 0 Prev_Close is NaN, the row-wise max skips NaN and
leaves High-Low. -/
def trueRange (hi lo c : ℕ → ℚ) : ℕ → ℚ
  | 0 => hi 0 - lo 0
  | t + 1 => max (max (hi (t + 1) - lo (t + 1)) |hi (t + 1) - c t|) |lo (t + 1) - c t|

/-- DM_plus: np.where(High rose ∧ the rise exceeds the low-fall, the rise, 0).
At index 0 the shifted comparisons are against NaN, hence False, giving 0. -/
def dmPlus (hi lo : ℕ → ℚ) : ℕ → ℚ
  | 0 => 0
  | t + 1 =>
      if hi t < hi (t + 1) ∧ lo t - lo (t + 1) < hi (t + 1) - hi t
      then hi (t + 1) - hi t else 0

/-- DM_minus, symmetric to `dmPlus`. -/
def dmMinus (hi lo : ℕ → ℚ) : ℕ → ℚ
  | 0 => 0
  | t + 1 =>
      if lo (t + 1) < lo t ∧ hi (t + 1) - hi t < lo t - lo (t + 1)
      then lo t - lo (t + 1) else 0

/-- wilder_smooth: series.ewm(alpha=a, adjust=False).mean(), i.e.
y 0 = x 0 and y (t+1) = (1-a) * y t + a * x (t+1). -/
def wilder (a : ℚ) (x : ℕ → ℚ) : ℕ → ℚ
  | 0 => x 0
  | t + 1 => (1 - a) * wilder a x t + a * x (t + 1)

/-- DI_plus = smoothed DM_plus / smoothed TR * 100 (with window w, alpha 1/w). -/
def diPlus (hi lo c : ℕ → ℚ) (w t : ℕ) : ℚ :=
  wilder (1 / w) (dmPlus hi lo) t / wilder (1 / w) (trueRange hi lo c) t * 100

/-- DI_minus = smoothed DM_minus / smoothed TR * 100. -/
def diMinus (hi lo c : ℕ → ℚ) (w t : ℕ) : ℚ :=
  wilder (1 / w) (dmMinus hi lo) t / wilder (1 / w) (trueRange hi lo c) t * 100

/-- DX = |DI_plus - DI_minus| / (DI_plus + DI_minus) * 100. -/
def dxv (hi lo c : ℕ → ℚ) (w t : ℕ) : ℚ :=
  |diPlus hi lo c w t - diMinus hi lo c w t| /
    (diPlus hi lo c w t + diMinus hi lo c w t) * 100

/-- ADX = Wilder-smoothed DX. -/
def adx (hi lo c : ℕ → ℚ) (w : ℕ) : ℕ → ℚ :=
  wilder (1 / w) (dxv hi lo c w)

/-- Signal_Trigger of `calculate_adx_strategy_performance`:
np.select([buy ∧ trend, sell], [1.0, 0.0], default=NaN), NaN modelled as none.
The two conditions are mutually exclusive, so np.select's first-match order
coincides with this if-chain. -/
def adxTrigger (hi lo c : ℕ → ℚ) (w : ℕ) (thr : ℚ) (t : ℕ) : Option ℚ :=
  if diMinus hi lo c w t < diPlus hi lo c w t ∧ thr < adx hi lo c w t then some 1
  else if diPlus hi lo c w t < diMinus hi lo c w t then some 0
  else none

/-- Signal = Signal_Trigger.ffill().fillna(0.0). -/
def adxSignal (hi lo c : ℕ → ℚ) (w : ℕ) (thr : ℚ) : ℕ → ℚ
  | 0 => (adxTrigger hi lo c w thr 0).getD 0
  | t + 1 => (adxTrigger hi lo c w thr (t + 1)).getD (adxSignal hi lo c w thr t)

/-- Strategy_Returns = Returns * Signal.shift(1) for the ADX strategy; index 0
is NaN in the code and dropped. -/
def adxStratReturn (hi lo c : ℕ → ℚ) (w : ℕ) (thr : ℚ) : ℕ → ℚ
  | 0 => 0
  | t + 1 => ret c (t + 1) * adxSignal hi lo c w thr t

theorem wilder_congr (a : ℚ) (x y : ℕ → ℚ) (t : ℕ)
    (h : ∀ i, i ≤ t → x i = y i) : wilder a x t = wilder a y t := by
  induction t with
  | zero => simpa [wilder] using h 0 le_rfl
  | succ n ih =>
      simp only [wilder]
      rw [ih (fun i hi => h i (le_trans hi (Nat.le_succ n))), h (n + 1) le_rfl]

theorem trueRange_congr (h1 l1 c1 h2 l2 c2 : ℕ → ℚ) (t : ℕ)
    (hh : ∀ i, i ≤ t → h1 i = h2 i) (hl : ∀ i, i ≤ t → l1 i = l2 i)
    (hc : ∀ i, i ≤ t → c1 i = c2 i) :
    trueRange h1 l1 c1 t = trueRange h2 l2 c2 t := by
  cases t with
  | zero => simp [trueRange, hh 0 le_rfl, hl 0 le_rfl]
  | succ n =>
      simp [trueRange, hh (n + 1) le_rfl, hl (n + 1) le_rfl,
        hh n (Nat.le_succ n), hl n (Nat.le_succ n), hc n (Nat.le_succ n)]

theorem dmPlus_congr (h1 l1 h2 l2 : ℕ → ℚ) (t : ℕ)
    (hh : ∀ i, i ≤ t → h1 i = h2 i) (hl : ∀ i, i ≤ t → l1 i = l2 i) :
    dmPlus h1 l1 t = dmPlus h2 l2 t := by
  cases t with
  | zero => simp [dmPlus]
  | succ n =>
      simp [dmPlus, hh (n + 1) le_rfl, hl (n + 1) le_rfl,
        hh n (Nat.le_succ n), hl n (Nat.le_succ n)]

theorem dmMinus_congr (h1 l1 h2 l2 : ℕ → ℚ) (t : ℕ)
    (hh : ∀ i, i ≤ t → h1 i = h2 i) (hl : ∀ i, i ≤ t → l1 i = l2 i) :
    dmMinus h1 l1 t = dmMinus h2 l2 t := by
  cases t with
  | zero => simp [dmMinus]
  | succ n =>
      simp [dmMinus, hh (n + 1) le_rfl, hl (n + 1) le_rfl,
        hh n (Nat.le_succ n), hl n (Nat.le_succ n)]

theorem diPlus_congr (h1 l1 c1 h2 l2 c2 : ℕ → ℚ) (w t : ℕ)
    (hh : ∀ i, i ≤ t → h1 i = h2 i) (hl : ∀ i, i ≤ t → l1 i = l2 i)
    (hc : ∀ i, i ≤ t → c1 i = c2 i) :
    diPlus h1 l1 c1 w t = diPlus h2 l2 c2 w t := by
  unfold diPlus
  rw [wilder_congr _ _ (dmPlus h2 l2) t
      (fun i hi => dmPlus_congr _ _ _ _ i
        (fun j hj => hh j (le_trans hj hi)) (fun j hj => hl j (le_trans hj hi))),
    wilder_congr _ _ (trueRange h2 l2 c2) t
      (fun i hi => trueRange_congr _ _ _ _ _ _ i
        (fun j hj => hh j (le_trans hj hi)) (fun j hj => hl j (le_trans hj hi))
        (fun j hj => hc j (le_trans hj hi)))]

theorem diMinus_congr (h1 l1 c1 h2 l2 c2 : ℕ → ℚ) (w t : ℕ)
    (hh : ∀ i, i ≤ t → h1 i = h2 i) (hl : ∀ i, i ≤ t → l1 i = l2 i)
    (hc : ∀ i, i ≤ t → c1 i = c2 i) :
    diMinus h1 l1 c1 w t = diMinus h2 l2 c2 w t := by
  unfold diMinus
  rw [wilder_congr _ _ (dmMinus h2 l2) t
      (fun i hi => dmMinus_congr _ _ _ _ i
        (fun j hj => hh j (le_trans hj hi)) (fun j hj => hl j (le_trans hj hi))),
    wilder_congr _ _ (trueRange h2 l2 c2) t
      (fun i hi => trueRange_congr _ _ _ _ _ _ i
        (fun j hj => hh j (le_trans hj hi)) (fun j hj => hl j (le_trans hj hi))
        (fun j hj => hc j (le_trans hj hi)))]

theorem dxv_congr (h1 l1 c1 h2 l2 c2 : ℕ → ℚ) (w t : ℕ)
    (hh : ∀ i, i ≤ t → h1 i = h2 i) (hl : ∀ i, i ≤ t → l1 i = l2 i)
    (hc : ∀ i, i ≤ t → c1 i = c2 i) :
    dxv h1 l1 c1 w t = dxv h2 l2 c2 w t := by
  unfold dxv
  rw [diPlus_congr h1 l1 c1 h2 l2 c2 w t hh hl hc,
    diMinus_congr h1 l1 c1 h2 l2 c2 w t hh hl hc]

theorem adx_congr (h1 l1 c1 h2 l2 c2 : ℕ → ℚ) (w t : ℕ)
    (hh : ∀ i, i ≤ t → h1 i = h2 i) (hl : ∀ i, i ≤ t → l1 i = l2 i)
    (hc : ∀ i, i ≤ t → c1 i = c2 i) :
    adx h1 l1 c1 w t = adx h2 l2 c2 w t := by
  unfold adx
  exact wilder_congr _ _ _ t (fun i hi => dxv_congr _ _ _ _ _ _ w i
    (fun j hj => hh j (le_trans hj hi)) (fun j hj => hl j (le_trans hj hi))
    (fun j hj => hc j (le_trans hj hi)))

theorem adxTrigger_congr (h1 l1 c1 h2 l2 c2 : ℕ → ℚ) (w : ℕ) (thr : ℚ) (t : ℕ)
    (hh : ∀ i, i ≤ t → h1 i = h2 i) (hl : ∀ i, i ≤ t → l1 i = l2 i)
    (hc : ∀ i, i ≤ t → c1 i = c2 i) :
    adxTrigger h1 l1 c1 w thr t = adxTrigger h2 l2 c2 w thr t := by
  unfold adxTrigger
  simp only [diPlus_congr h1 l1 c1 h2 l2 c2 w t hh hl hc,
    diMinus_congr h1 l1 c1 h2 l2 c2 w t hh hl hc,
    adx_congr h1 l1 c1 h2 l2 c2 w t hh hl hc]

theorem adxSignal_congr (h1 l1 c1 h2 l2 c2 : ℕ → ℚ) (w : ℕ) (thr : ℚ) (t : ℕ)
    (hh : ∀ i, i ≤ t → h1 i = h2 i) (hl : ∀ i, i ≤ t → l1 i = l2 i)
    (hc : ∀ i, i ≤ t → c1 i = c2 i) :
    adxSignal h1 l1 c1 w thr t = adxSignal h2 l2 c2 w thr t := by
  induction t with
  | zero => simp [adxSignal, adxTrigger_congr h1 l1 c1 h2 l2 c2 w thr 0 hh hl hc]
  | succ n ih =>
      simp only [adxSignal,
        adxTrigger_congr h1 l1 c1 h2 l2 c2 w thr (n + 1) hh hl hc,
        ih (fun i hi => hh i (le_trans hi (Nat.le_succ n)))
          (fun i hi => hl i (le_trans hi (Nat.le_succ n)))
          (fun i hi => hc i (le_trans hi (Nat.le_succ n)))]

/-- The first row the momentum pipeline retains after dropna: Returns and the
shifted signal are NaN at row 0 and Long_SMA/Short_SMA are NaN before their
windows fill, so rows 0 .. max(short,long)-2 (and always row 0) are dropped. -/
def momFirstRow (s l : ℕ) : ℕ := max (max s l - 1) 1

/-- Cumulative_Value of the momentum strategy: the cumulative product of
(1 + Strategy_Returns) over the retained rows; `k` indexes the curve. -/
def momEquity (p : ℕ → ℚ) (s l k : ℕ) : ℚ :=
  ((List.range (k + 1)).map (fun j => 1 + momStratReturn p s l (momFirstRow s l + j))).prod

/-- Cumulative_Value of the ADX strategy.  In this rational model only row 0
carries NaN (Returns and the shifted signal), so the retained rows start at 1;
in numpy a completely flat prefix can drop further leading rows, whose held
signal is 0 as well. -/
def adxEquity (hi lo c : ℕ → ℚ) (w : ℕ) (thr : ℚ) (k : ℕ) : ℚ :=
  ((List.range (k + 1)).map (fun j => 1 + adxStratReturn hi lo c w thr (1 + j))).prod

theorem momSignal_values (p : ℕ → ℚ) (s l t : ℕ) :
    momSignal p s l t = 0 ∨ momSignal p s l t = 1 := by
  unfold momSignal
  split
  · exact Or.inr rfl
  · exact Or.inl rfl

theorem momFirstRow_pos (s l : ℕ) : 1 ≤ momFirstRow s l := le_max_right _ 1

theorem momSignal_warmup (p : ℕ → ℚ) (s l : ℕ) (hs : 1 ≤ s) (hl : 1 ≤ l) :
    momSignal p s l (momFirstRow s l - 1) = 0 := by
  unfold momSignal momFirstRow
  rcases le_or_lt (max s l) 1 with h | h
  · have hs1 : s = 1 := by omega
    have hl1 : l = 1 := by omega
    subst hs1; subst hl1
    simp
  · rw [if_neg]
    rintro ⟨h1, h2, _⟩
    omega

theorem momStratReturn_first (p : ℕ → ℚ) (s l : ℕ) (hs : 1 ≤ s) (hl : 1 ≤ l) :
    momStratReturn p s l (momFirstRow s l) = 0 := by
  have hrow : momFirstRow s l = (momFirstRow s l - 1) + 1 := by
    have := momFirstRow_pos s l
    omega
  rw [hrow, momStratReturn, momSignal_warmup p s l hs hl, mul_zero]

theorem momFactor_pos (p : ℕ → ℚ) (s l t : ℕ) (hp : ∀ i, 0 < p i) :
    0 < 1 + momStratReturn p s l t := by
  cases t with
  | zero => simp [momStratReturn]
  | succ n =>
      rcases momSignal_values p s l n with h | h
      · simp [momStratReturn, h]
      · have : 1 + momStratReturn p s l (n + 1) = p (n + 1) / p n := by
          rw [momStratReturn, h, mul_one, ret]
          ring
        rw [this]
        exact div_pos (hp _) (hp _)

theorem diPlus_at_zero (hi lo c : ℕ → ℚ) (w : ℕ) : diPlus hi lo c w 0 = 0 := by
  simp [diPlus, wilder, dmPlus]

theorem diMinus_at_zero (hi lo c : ℕ → ℚ) (w : ℕ) : diMinus hi lo c w 0 = 0 := by
  simp [diMinus, wilder, dmMinus]

theorem adxSignal_at_zero (hi lo c : ℕ → ℚ) (w : ℕ) (thr : ℚ) :
    adxSignal hi lo c w thr 0 = 0 := by
  simp [adxSignal, adxTrigger, diPlus_at_zero, diMinus_at_zero]

theorem adxSignal_values (hi lo c : ℕ → ℚ) (w : ℕ) (thr : ℚ) (t : ℕ) :
    adxSignal hi lo c w thr t = 0 ∨ adxSignal hi lo c w thr t = 1 := by
  induction t with
  | zero => exact Or.inl (adxSignal_at_zero hi lo c w thr)
  | succ n ih =>
      rw [adxSignal]
      unfold adxTrigger
      split
      · exact Or.inr rfl
      · split
        · exact Or.inl rfl
        · simpa using ih

theorem adxStratReturn_first (hi lo c : ℕ → ℚ) (w : ℕ) (thr : ℚ) :
    adxStratReturn hi lo c w thr 1 = 0 := by
  show adxStratReturn hi lo c w thr (0 + 1) = 0
  rw [adxStratReturn, adxSignal_at_zero, mul_zero]

theorem adxFactor_pos (hi lo c : ℕ → ℚ) (w : ℕ) (thr : ℚ) (t : ℕ)
    (hc : ∀ i, 0 < c i) : 0 < 1 + adxStratReturn hi lo c w thr t := by
  cases t with
  | zero => simp [adxStratReturn]
  | succ n =>
      rcases adxSignal_values hi lo c w thr n with h | h
      · simp [adxStratReturn, h]
      · have : 1 + adxStratReturn hi lo c w thr (n + 1) = c (n + 1) / c n := by
          rw [adxStratReturn, h, mul_one, ret]
          ring
        rw [this]
        exact div_pos (hc _) (hc _)

/-- calculate_kaufman_efficiency_ratio evaluated at index n (the code reads
`er.iloc[-1]`, n being the series' last index): |p n - p (n-period)| divided by
the rolling sum of |diff| over the trailing `period` window.  In pandas the
value is NaN unless period ≤ n. -/
def kaufmanER (p : ℕ → ℚ) (period n : ℕ) : ℚ :=
  |p n - p (n - period)| /
    (((List.range period).map
        (fun j => |p (n - period + j + 1) - p (n - period + j)|)).sum)

theorem abs_telescope (p : ℕ → ℚ) (b : ℕ) :
    ∀ m, |p (b + m) - p b| ≤
      ((List.range m).map (fun j => |p (b + j + 1) - p (b + j)|)).sum := by
  intro m
  induction m with
  | zero => simp
  | succ k ih =>
      rw [List.range_succ, List.map_append, List.sum_append]
      have h1 : |p (b + (k + 1)) - p b| ≤
          |p (b + (k + 1)) - p (b + k)| + |p (b + k) - p b| :=
        abs_sub_le _ _ _
      have h2 : b + (k + 1) = b + k + 1 := by omega
      rw [h2] at h1
      rw [h2]
      simp only [List.map_cons, List.map_nil, List.sum_cons, List.sum_nil]
      linarith

theorem adxTrigger_buy (hi lo c : ℕ → ℚ) (w : ℕ) (thr : ℚ) (t : ℕ)
    (h1 : diMinus hi lo c w t < diPlus hi lo c w t)
    (h2 : thr < adx hi lo c w t) :
    adxTrigger hi lo c w thr t = some 1 := by
  unfold adxTrigger
  rw [if_pos ⟨h1, h2⟩]

theorem adxTrigger_sell (hi lo c : ℕ → ℚ) (w : ℕ) (thr : ℚ) (t : ℕ)
    (h : diPlus hi lo c w t < diMinus hi lo c w t) :
    adxTrigger hi lo c w thr t = some 0 := by
  unfold adxTrigger
  rw [if_neg (fun hc => absurd hc.1 (lt_asymm h)), if_pos h]

theorem adxTrigger_hold (hi lo c : ℕ → ℚ) (w : ℕ) (thr : ℚ) (t : ℕ)
    (h1 : ¬(diMinus hi lo c w t < diPlus hi lo c w t ∧ thr < adx hi lo c w t))
    (h2 : ¬ diPlus hi lo c w t < diMinus hi lo c w t) :
    adxTrigger hi lo c w thr t = none := by
  unfold adxTrigger
  rw [if_neg h1, if_neg h2]

theorem adxSignal_of_trigger (hi lo c : ℕ → ℚ) (w : ℕ) (thr : ℚ) (t : ℕ)
    (v : ℚ) (h : adxTrigger hi lo c w thr t = some v) :
    adxSignal hi lo c w thr t = v := by
  cases t with
  | zero => simp [adxSignal, h]
  | succ n => simp [adxSignal, h]

end QuantA

/-- C1: Signal lag (no look-ahead).  For both strategies the strategy return at
index t+1 is signal[t] * return[t+1], and each strategy's signal at index t is
determined by the prices up to and including index t: two price histories that
agree on indices 0..t produce the same signal at t, whatever their later
values. -/
theorem c1_signal_lag_no_lookahead :
    (∀ (p : ℕ → ℚ) (s l t : ℕ),
        QuantA.momStratReturn p s l (t + 1) =
          QuantA.momSignal p s l t * QuantA.ret p (t + 1)) ∧
    (∀ (hi lo c : ℕ → ℚ) (w : ℕ) (thr : ℚ) (t : ℕ),
        QuantA.adxStratReturn hi lo c w thr (t + 1) =
          QuantA.adxSignal hi lo c w thr t * QuantA.ret c (t + 1)) ∧
    (∀ (p q : ℕ → ℚ) (s l t : ℕ), (∀ i, i ≤ t → p i = q i) →
        QuantA.momSignal p s l t = QuantA.momSignal q s l t) ∧
    (∀ (h1 l1 c1 h2 l2 c2 : ℕ → ℚ) (w : ℕ) (thr : ℚ) (t : ℕ),
        (∀ i, i ≤ t → h1 i = h2 i) → (∀ i, i ≤ t → l1 i = l2 i) →
        (∀ i, i ≤ t → c1 i = c2 i) →
        QuantA.adxSignal h1 l1 c1 w thr t = QuantA.adxSignal h2 l2 c2 w thr t) := by
  refine ⟨fun p s l t => ?_, fun hi lo c w thr t => ?_,
    fun p q s l t h => QuantA.momSignal_congr p q s l t h,
    fun h1 l1 c1 h2 l2 c2 w thr t hh hl hc =>
      QuantA.adxSignal_congr h1 l1 c1 h2 l2 c2 w thr t hh hl hc⟩
  · simp [QuantA.momStratReturn, mul_comm]
  · simp [QuantA.adxStratReturn, mul_comm]

theorem c1_signal_lag_no_lookahead_witness :
    QuantA.momSignal (fun i => (i : ℚ)) 1 2 2 =
      QuantA.momSignal (fun i : ℕ => if i ≤ 2 then (i : ℚ) else 0) 1 2 2 ∧
    QuantA.adxSignal (fun i => (i : ℚ)) (fun i => (i : ℚ)) (fun i => (i : ℚ))
        1 25 2 =
      QuantA.adxSignal (fun i : ℕ => if i ≤ 2 then (i : ℚ) else 0)
        (fun i : ℕ => if i ≤ 2 then (i : ℚ) else 0)
        (fun i : ℕ => if i ≤ 2 then (i : ℚ) else 0) 1 25 2 ∧
    ¬ ((fun i => (i : ℚ)) 3 = (fun i : ℕ => if i ≤ 2 then (i : ℚ) else 0) 3) := by
  have hpre : ∀ i : ℕ, i ≤ 2 → (fun i => (i : ℚ)) i =
      (fun i : ℕ => if i ≤ 2 then (i : ℚ) else 0) i := fun i hi => by simp [hi]
  refine ⟨c1_signal_lag_no_lookahead.2.2.1 _ _ 1 2 2 hpre,
    c1_signal_lag_no_lookahead.2.2.2 _ _ _ _ _ _ 1 25 2 hpre hpre hpre, by norm_num⟩

/-- C6: ADX trading rule.  The signal is 1.0 when +DI > -DI and ADX > threshold;
it is 0.0 whenever -DI > +DI, with no condition on ADX (the DI crossover
overrides the strength filter); when neither condition fires the previous
signal is held; and while no condition has fired yet the signal is flat
(0.0). -/
theorem c6_adx_trading_rule (hi lo c : ℕ → ℚ) (w : ℕ) (thr : ℚ) :
    (∀ t, QuantA.diMinus hi lo c w t < QuantA.diPlus hi lo c w t →
        thr < QuantA.adx hi lo c w t → QuantA.adxSignal hi lo c w thr t = 1) ∧
    (∀ t, QuantA.diPlus hi lo c w t < QuantA.diMinus hi lo c w t →
        QuantA.adxSignal hi lo c w thr t = 0) ∧
    (∀ t, ¬(QuantA.diMinus hi lo c w (t + 1) < QuantA.diPlus hi lo c w (t + 1) ∧
            thr < QuantA.adx hi lo c w (t + 1)) →
        ¬ QuantA.diPlus hi lo c w (t + 1) < QuantA.diMinus hi lo c w (t + 1) →
        QuantA.adxSignal hi lo c w thr (t + 1) = QuantA.adxSignal hi lo c w thr t) ∧
    (∀ t, (∀ i, i ≤ t →
          ¬(QuantA.diMinus hi lo c w i < QuantA.diPlus hi lo c w i ∧
              thr < QuantA.adx hi lo c w i) ∧
          ¬ QuantA.diPlus hi lo c w i < QuantA.diMinus hi lo c w i) →
        QuantA.adxSignal hi lo c w thr t = 0) := by
  refine ⟨fun t h1 h2 => QuantA.adxSignal_of_trigger hi lo c w thr t 1
      (QuantA.adxTrigger_buy hi lo c w thr t h1 h2),
    fun t h => QuantA.adxSignal_of_trigger hi lo c w thr t 0
      (QuantA.adxTrigger_sell hi lo c w thr t h),
    fun t h1 h2 => ?_, fun t h => ?_⟩
  · simp [QuantA.adxSignal, QuantA.adxTrigger_hold hi lo c w thr (t + 1) h1 h2]
  · induction t with
    | zero =>
        have h0 := h 0 le_rfl
        simp [QuantA.adxSignal, QuantA.adxTrigger_hold hi lo c w thr 0 h0.1 h0.2]
    | succ n ih =>
        have hn := h (n + 1) le_rfl
        simp [QuantA.adxSignal,
          QuantA.adxTrigger_hold hi lo c w thr (n + 1) hn.1 hn.2,
          ih (fun i hi => h i (le_trans hi (Nat.le_succ n)))]

theorem c6_adx_trading_rule_witness :
    QuantA.diMinus (fun i => (i : ℚ) + 1) (fun i => (i : ℚ) + 1)
        (fun i => (i : ℚ) + 1) 1 1 <
      QuantA.diPlus (fun i => (i : ℚ) + 1) (fun i => (i : ℚ) + 1)
        (fun i => (i : ℚ) + 1) 1 1 ∧
    (25 : ℚ) < QuantA.adx (fun i => (i : ℚ) + 1) (fun i => (i : ℚ) + 1)
        (fun i => (i : ℚ) + 1) 1 1 ∧
    QuantA.adxSignal (fun i => (i : ℚ) + 1) (fun i => (i : ℚ) + 1)
        (fun i => (i : ℚ) + 1) 1 25 1 = 1 := by
  have hdi : QuantA.diMinus (fun i => (i : ℚ) + 1) (fun i => (i : ℚ) + 1)
      (fun i => (i : ℚ) + 1) 1 1 <
      QuantA.diPlus (fun i => (i : ℚ) + 1) (fun i => (i : ℚ) + 1)
        (fun i => (i : ℚ) + 1) 1 1 := by
    norm_num [QuantA.diMinus, QuantA.diPlus, QuantA.wilder, QuantA.dmPlus,
      QuantA.dmMinus, QuantA.trueRange]
  have hadx : (25 : ℚ) < QuantA.adx (fun i => (i : ℚ) + 1) (fun i => (i : ℚ) + 1)
      (fun i => (i : ℚ) + 1) 1 1 := by
    norm_num [QuantA.adx, QuantA.dxv, QuantA.diMinus, QuantA.diPlus,
      QuantA.wilder, QuantA.dmPlus, QuantA.dmMinus, QuantA.trueRange]
  exact ⟨hdi, hadx,
    (c6_adx_trading_rule (fun i => (i : ℚ) + 1) (fun i => (i : ℚ) + 1)
        (fun i => (i : ℚ) + 1) 1 25).1 1 hdi hadx⟩

/-- C7: Equity curve invariant.  Both single-asset strategies produce signals
taking only the values 0 and 1, and for strictly positive prices the equity
curve (cumulative product of 1 + strategy return over the retained rows)
starts at exactly 1.0 — the first retained strategy return is 0 because the
lagged signal of the warm-up period is 0 — and is never negative at any
index. -/
theorem c7_equity_curve_invariant (p hi lo c : ℕ → ℚ) (s l w : ℕ) (thr : ℚ)
    (hs : 1 ≤ s) (hl : 1 ≤ l) (hp : ∀ i, 0 < p i) (hc : ∀ i, 0 < c i) :
    (∀ t, QuantA.momSignal p s l t = 0 ∨ QuantA.momSignal p s l t = 1) ∧
    QuantA.momEquity p s l 0 = 1 ∧
    (∀ k, 0 ≤ QuantA.momEquity p s l k) ∧
    (∀ t, QuantA.adxSignal hi lo c w thr t = 0 ∨
        QuantA.adxSignal hi lo c w thr t = 1) ∧
    QuantA.adxEquity hi lo c w thr 0 = 1 ∧
    (∀ k, 0 ≤ QuantA.adxEquity hi lo c w thr k) := by
  refine ⟨fun t => QuantA.momSignal_values p s l t,
    by simp [QuantA.momEquity, List.range_succ, QuantA.momStratReturn_first p s l hs hl],
    fun k => le_of_lt (List.prod_pos (fun a ha => ?_)),
    fun t => QuantA.adxSignal_values hi lo c w thr t,
    by simp [QuantA.adxEquity, List.range_succ, QuantA.adxStratReturn_first],
    fun k => le_of_lt (List.prod_pos (fun a ha => ?_))⟩
  · obtain ⟨j, hj, rfl⟩ := List.mem_map.mp ha
    exact QuantA.momFactor_pos p s l _ hp
  · obtain ⟨j, hj, rfl⟩ := List.mem_map.mp ha
    exact QuantA.adxFactor_pos hi lo c w thr _ hc

theorem c7_equity_curve_invariant_witness :
    QuantA.momEquity (fun _ => 1) 2 3 0 = 1 ∧
    QuantA.adxEquity (fun _ => 1) (fun _ => 1) (fun _ => 1) 14 25 0 = 1 ∧
    0 ≤ QuantA.momEquity (fun _ => 1) 2 3 5 := by
  have h := c7_equity_curve_invariant (fun _ => 1) (fun _ => 1) (fun _ => 1)
    (fun _ => 1) 2 3 14 25 (by norm_num) (by norm_num)
    (fun i => by norm_num) (fun i => by norm_num)
  exact ⟨h.2.1, h.2.2.2.2.1, h.2.2.1 5⟩

/-- C10: the Kaufman Efficiency Ratio lies in [0,1].  For any price stream, any
window, and any evaluation index at least `period` (series length at least
period+1) whose trailing total absolute path length is strictly positive, the
ratio of net displacement to path length is between 0 and 1 — the triangle
inequality bounds the displacement by the path length. -/
theorem c10_kaufman_er_bounds (p : ℕ → ℚ) (period n : ℕ) (hn : period ≤ n)
    (hpos : 0 < ((List.range period).map
        (fun j => |p (n - period + j + 1) - p (n - period + j)|)).sum) :
    0 ≤ QuantA.kaufmanER p period n ∧ QuantA.kaufmanER p period n ≤ 1 := by
  constructor
  · exact div_nonneg (abs_nonneg _) (le_of_lt hpos)
  · rw [QuantA.kaufmanER, div_le_one hpos]
    have h := QuantA.abs_telescope p (n - period) period
    have hb : n - period + period = n := by omega
    rwa [hb] at h

theorem c10_kaufman_er_bounds_witness :
    0 ≤ QuantA.kaufmanER (fun i => (i : ℚ)) 2 3 ∧
    QuantA.kaufmanER (fun i => (i : ℚ)) 2 3 ≤ 1 :=
  c10_kaufman_er_bounds (fun i => (i : ℚ)) 2 3 (by norm_num)
    (by norm_num [List.range_succ])

namespace QuantB

/-- _normalize_weights: np.clip(w, 0, None), then if the clipped sum is ≤ 0
return the clipped vector unchanged, else divide every entry by the sum. -/
def normalize_weights (w : List ℚ) : List ℚ :=
  if (w.map (fun x => max x 0)).sum ≤ 0 then w.map (fun x => max x 0)
  else (w.map (fun x => max x 0)).map (fun x => x / (w.map (fun y => max y 0)).sum)

/-- _equal_weights: np.ones(n) / n. -/
def equal_weights (n : ℕ) : List ℚ := List.replicate n (1 / (n : ℚ))

/-- user_w.get(t, 0.0), the dict modelled as an association list. -/
def lookupW (u : List (String × ℚ)) (t : String) : ℚ :=
  ((u.find? (fun q => q.1 == t)).map Prod.snd).getD 0

/-- _custom_weights. -/
def custom_weights (tickers : List String) (u : List (String × ℚ)) : List ℚ :=
  normalize_weights (tickers.map (lookupW u))

inductive WeightMode
  | equal
  | custom (userW : List (String × ℚ))

/-- current_w as recomputed inside the rebalance loop; the code's computation
does not depend on the rebalance date. -/
def currentWeights : WeightMode → List String → List ℚ
  | WeightMode.equal, tickers => equal_weights tickers.length
  | WeightMode.custom u, tickers => custom_weights tickers u

inductive RebalFreq
  | none
  | weekly
  | monthly

/-- _rebalance_dates over the positional indices 0..n-1 of the return table:
for "none" the code returns the singleton [index[0]].  The "W"/"M" branches
call pandas resample, an external calendar bucketing modelled as the oracle
parameter; no claim depends on them. -/
def rebalance_dates (n : ℕ) (freq : RebalFreq)
    (resampleFirst : RebalFreq → List ℕ) : List ℕ :=
  match n, freq with
  | _, RebalFreq.none => [0]
  | _, f => resampleFirst f

/-- weights_ts.loc[d:, :] = current_w over positional rows. -/
def setFrom (d : ℕ) (w : List ℚ) : List (Option (List ℚ)) → List (Option (List ℚ))
  | [] => []
  | r :: rs =>
      match d with
      | 0 => some w :: setFrom 0 w rs
      | e + 1 => r :: setFrom e w rs

/-- The rebalance loop of _backtest_portfolio: every rebalance date stamps the
current weights onto all rows from that date on. -/
def assignLoop (dates : List ℕ) (w : List ℚ)
    (rows : List (Option (List ℚ))) : List (Option (List ℚ)) :=
  dates.foldl (fun acc d => setFrom d w acc) rows

/-- weights_ts.ffill(). -/
def ffillRows (last : Option (List ℚ)) :
    List (Option (List ℚ)) → List (Option (List ℚ))
  | [] => []
  | Option.none :: rs => last :: ffillRows last rs
  | some v :: rs => some v :: ffillRows (some v) rs

/-- weights_ts after the loop, ffill and dropna: the weight vector held at each
retained row of the backtest. -/
def weights_ts (n : ℕ) (dates : List ℕ) (w : List ℚ) : List (List ℚ) :=
  (ffillRows Option.none (assignLoop dates w (List.replicate n Option.none))).filterMap id

/-- One row of (returns.loc[...] * weights_ts).sum(axis=1). -/
def portReturnRow (w row : List ℚ) : ℚ :=
  (List.zipWith (fun a b => a * b) row w).sum

theorem setFrom_zero (w : List ℚ) :
    ∀ l : List (Option (List ℚ)), setFrom 0 w l = List.replicate l.length (some w) := by
  intro l
  induction l with
  | nil => rfl
  | cons r rs ih => simp [setFrom, ih, List.replicate]

theorem ffillRows_all_some (w : List ℚ) :
    ∀ (n : ℕ) (last : Option (List ℚ)),
      ffillRows last (List.replicate n (some w)) = List.replicate n (some w) := by
  intro n
  induction n with
  | zero => intro last; rfl
  | succ k ih => intro last; simp [List.replicate, ffillRows, ih]

theorem filterMap_id_replicate_some (w : List ℚ) (n : ℕ) :
    (List.replicate n (some w)).filterMap id = List.replicate n w := by
  induction n with
  | zero => rfl
  | succ k ih => simp [List.replicate, List.filterMap_cons, ih]

theorem sum_map_div (c : List ℚ) (s : ℚ) :
    (c.map (fun x => x / s)).sum = c.sum / s := by
  induction c with
  | nil => simp
  | cons x xs ih => simp [ih, add_div]

theorem eq_replicate_zero_of_nonneg_sum_zero :
    ∀ l : List ℚ, (∀ x ∈ l, 0 ≤ x) → l.sum = 0 → l = List.replicate l.length 0 := by
  intro l
  induction l with
  | nil => intro _ _; rfl
  | cons x xs ih =>
      intro hpos hsum
      have hx : 0 ≤ x := hpos x (List.mem_cons_self x xs)
      have hxs : 0 ≤ xs.sum := List.sum_nonneg (fun y hy => hpos y (List.mem_cons_of_mem x hy))
      rw [List.sum_cons] at hsum
      have hx0 : x = 0 := by linarith
      have hxs0 : xs.sum = 0 := by linarith
      rw [List.length_cons, List.replicate, ← ih (fun y hy => hpos y (List.mem_cons_of_mem x hy)) hxs0, hx0]

theorem zipWith_mul_replicate_zero (row : List ℚ) :
    ∀ n : ℕ, (List.zipWith (fun a b => a * b) row (List.replicate n (0 : ℚ))).sum = 0 := by
  induction row with
  | nil => intro n; simp
  | cons a as ih =>
      intro n
      cases n with
      | zero => simp
      | succ k => simp [List.replicate, ih k]

end QuantB

/-- C2: Weight normalization.  Negative components are clamped to 0 first; if
the clamped vector has positive sum the normalized vector is componentwise
non-negative and sums to exactly 1 (hence within 1e-9); if the clamped vector
sums to zero, normalization returns the clamped vector unchanged — the zero
vector — and every portfolio return computed from it is 0. -/
theorem c2_weight_normalization (w : List ℚ) :
    (0 < (w.map (fun x => max x 0)).sum →
      (QuantB.normalize_weights w).sum = 1 ∧
      ∀ x ∈ QuantB.normalize_weights w, 0 ≤ x) ∧
    ((w.map (fun x => max x 0)).sum = 0 →
      QuantB.normalize_weights w = w.map (fun x => max x 0) ∧
      QuantB.normalize_weights w = List.replicate w.length 0 ∧
      ∀ row : List ℚ, QuantB.portReturnRow (QuantB.normalize_weights w) row = 0) := by
  constructor
  · intro hpos
    have hcond : ¬ (w.map (fun x => max x 0)).sum ≤ 0 := not_le.mpr hpos
    constructor
    · rw [QuantB.normalize_weights, if_neg hcond, QuantB.sum_map_div,
        div_self (ne_of_gt hpos)]
    · intro x hx
      rw [QuantB.normalize_weights, if_neg hcond] at hx
      obtain ⟨y, hy, rfl⟩ := List.mem_map.mp hx
      obtain ⟨z, hz, rfl⟩ := List.mem_map.mp hy
      exact div_nonneg (le_max_right z 0) (le_of_lt hpos)
  · intro hzero
    have hcond : (w.map (fun x => max x 0)).sum ≤ 0 := le_of_eq hzero
    have hnw : QuantB.normalize_weights w = w.map (fun x => max x 0) := by
      rw [QuantB.normalize_weights, if_pos hcond]
    have hnn : ∀ x ∈ w.map (fun x => max x 0), (0 : ℚ) ≤ x := by
      intro x hx
      obtain ⟨z, hz, rfl⟩ := List.mem_map.mp hx
      exact le_max_right z 0
    have hrep : w.map (fun x => max x 0) = List.replicate w.length 0 := by
      have h2 := QuantB.eq_replicate_zero_of_nonneg_sum_zero _ hnn hzero
      rwa [List.length_map] at h2
    refine ⟨hnw, hnw.trans hrep, fun row => ?_⟩
    rw [QuantB.portReturnRow, hnw.trans hrep, QuantB.zipWith_mul_replicate_zero]

theorem c2_weight_normalization_witness :
    (QuantB.normalize_weights [1, -1, 3]).sum = 1 ∧
    QuantB.normalize_weights [-2, 0] = List.replicate 2 0 ∧
    QuantB.portReturnRow (QuantB.normalize_weights [-2, 0]) [5, 7] = 0 := by
  have h1 := (c2_weight_normalization [1, -1, 3]).1 (by norm_num)
  have h2 := (c2_weight_normalization [-2, 0]).2 (by norm_num)
  exact ⟨h1.1, by simpa using h2.2.1, h2.2.2 [5, 7]⟩

/-- C3: Rebalance frequency "none".  For every non-empty return table the
schedule is exactly the singleton containing the first date, and the weight
vector held at every retained row of the backtest equals the vector computed
at that first date — the weight time series is constant over the horizon. -/
theorem c3_rebalance_none_constant_weights (n : ℕ) (mode : QuantB.WeightMode)
    (tickers : List String) (oracle : QuantB.RebalFreq → List ℕ) (hn : 1 ≤ n) :
    QuantB.rebalance_dates n QuantB.RebalFreq.none oracle = [0] ∧
    QuantB.weights_ts n (QuantB.rebalance_dates n QuantB.RebalFreq.none oracle)
        (QuantB.currentWeights mode tickers) =
      List.replicate n (QuantB.currentWeights mode tickers) := by
  refine ⟨rfl, ?_⟩
  rw [show QuantB.rebalance_dates n QuantB.RebalFreq.none oracle = [0] from rfl]
  unfold QuantB.weights_ts QuantB.assignLoop
  simp only [List.foldl_cons, List.foldl_nil]
  rw [QuantB.setFrom_zero, List.length_replicate, QuantB.ffillRows_all_some,
    QuantB.filterMap_id_replicate_some]

theorem c3_rebalance_none_constant_weights_witness :
    QuantB.weights_ts 3
        (QuantB.rebalance_dates 3 QuantB.RebalFreq.none (fun _ => []))
        (QuantB.currentWeights QuantB.WeightMode.equal ["A", "B"]) =
      List.replicate 3 (QuantB.currentWeights QuantB.WeightMode.equal ["A", "B"]) :=
  (c3_rebalance_none_constant_weights 3 QuantB.WeightMode.equal ["A", "B"]
    (fun _ => []) (by norm_num)).2

namespace SharedMetrics

/-- Helper for price_series.cummax(): running maxima continuing from m. -/
def cummaxFrom (m : ℚ) : List ℚ → List ℚ
  | [] => []
  | x :: xs => max m x :: cummaxFrom (max m x) xs

/-- price_series.cummax(). -/
def cummaxList : List ℚ → List ℚ
  | [] => []
  | x :: xs => x :: cummaxFrom x xs

/-- drawdown = (price_series / rolling_max) - 1.0, elementwise. -/
def drawdownList (ps : List ℚ) : List ℚ :=
  List.zipWith (fun x m => x / m - 1) ps (cummaxList ps)

/-- pandas Series.min(): NaN (modelled none) on an empty series. -/
def listMin : List ℚ → Option ℚ
  | [] => Option.none
  | x :: xs => some (xs.foldl min x)

/-- calculate_max_drawdown of shared/metrics.py; the NaN min of the empty
drawdown series is modelled as none. -/
def calculate_max_drawdown (ps : List ℚ) : Option ℚ := listMin (drawdownList ps)

theorem foldl_min_le_init : ∀ (l : List ℚ) (a : ℚ), l.foldl min a ≤ a := by
  intro l
  induction l with
  | nil => intro a; exact le_rfl
  | cons x xs ih =>
      intro a
      exact le_trans (ih (min a x)) (min_le_left a x)

theorem foldl_min_le_mem : ∀ (l : List ℚ) (a x : ℚ), x ∈ l → l.foldl min a ≤ x := by
  intro l
  induction l with
  | nil => intro a x hx; cases hx
  | cons y ys ih =>
      intro a x hx
      rcases List.mem_cons.mp hx with h | h
      · subst h
        exact le_trans (foldl_min_le_init ys (min a x)) (min_le_right a x)
      · exact ih (min a y) x h

theorem foldl_min_mem : ∀ (l : List ℚ) (a : ℚ), l.foldl min a = a ∨ l.foldl min a ∈ l := by
  intro l
  induction l with
  | nil => intro a; exact Or.inl rfl
  | cons x xs ih =>
      intro a
      rcases ih (min a x) with h | h
      · rcases min_cases a x with ⟨hm, _⟩ | ⟨hm, _⟩
        · exact Or.inl (by rw [List.foldl_cons, h, hm])
        · exact Or.inr (by rw [List.foldl_cons, h, hm]; exact List.mem_cons_self x xs)
      · exact Or.inr (List.mem_cons_of_mem x h)

end SharedMetrics

namespace QuantB

/-- _max_drawdown of the portfolio engine: an explicit NaN guard on the empty
series, then the same cummax / min formula as the metrics library. -/
def max_drawdown (cum : List ℚ) : Option ℚ :=
  if cum = [] then Option.none
  else SharedMetrics.listMin (SharedMetrics.drawdownList cum)

end QuantB

/-- C8 counterexample: the claim states that on an empty series the
portfolio-engine local variant returns 0.0; in fact `_max_drawdown` guards the
empty series with `float("nan")` (modelled none), not 0.0. -/
theorem c8_empty_drawdown_cex :
    QuantB.max_drawdown ([] : List ℚ) = Option.none ∧
    QuantB.max_drawdown ([] : List ℚ) ≠ some 0 := by
  constructor
  · rfl
  · intro h
    simp [QuantB.max_drawdown] at h

/-- C8 (amended): on a non-empty series maxDrawdown is the minimum over t of
value[t]/runningMax(value)[t] - 1, and the metrics-library variant and the
portfolio-engine local variant agree; on an empty series BOTH variants return
NaN (the portfolio-engine variant does not return 0.0). -/
theorem c8_drawdown_conventions_amended :
    SharedMetrics.calculate_max_drawdown ([] : List ℚ) = Option.none ∧
    QuantB.max_drawdown ([] : List ℚ) = Option.none ∧
    ∀ (ps : List ℚ) (m : ℚ), ps ≠ [] →
      SharedMetrics.calculate_max_drawdown ps = some m →
      (m ∈ SharedMetrics.drawdownList ps ∧
        ∀ x ∈ SharedMetrics.drawdownList ps, m ≤ x) ∧
      QuantB.max_drawdown ps = some m := by
  refine ⟨rfl, rfl, fun ps m hne hm => ?_⟩
  cases ps with
  | nil => exact absurd rfl hne
  | cons p rest =>
      have hdd : SharedMetrics.drawdownList (p :: rest) =
          (p / p - 1) :: List.zipWith (fun x m => x / m - 1) rest
            (SharedMetrics.cummaxFrom p rest) := by
        rfl
      rw [SharedMetrics.calculate_max_drawdown, hdd, SharedMetrics.listMin] at hm
      obtain rfl : (List.zipWith (fun x m => x / m - 1) rest
          (SharedMetrics.cummaxFrom p rest)).foldl min (p / p - 1) = m :=
        Option.some.inj hm
      refine ⟨⟨?_, ?_⟩, ?_⟩
      · rw [hdd]
        rcases SharedMetrics.foldl_min_mem _ (p / p - 1) with h | h
        · rw [h]; exact List.mem_cons_self _ _
        · exact List.mem_cons_of_mem _ h
      · intro x hx
        rw [hdd] at hx
        rcases List.mem_cons.mp hx with h | h
        · rw [h]; exact SharedMetrics.foldl_min_le_init _ _
        · exact SharedMetrics.foldl_min_le_mem _ _ x h
      · rw [QuantB.max_drawdown, if_neg hne, SharedMetrics.drawdownList]
        rw [SharedMetrics.drawdownList] at hdd
        rw [hdd, SharedMetrics.listMin]

theorem c8_drawdown_conventions_amended_witness :
    (((-1 : ℚ)/22 ∈ SharedMetrics.drawdownList [1, 11/10, 21/20, 6/5] ∧
      ∀ x ∈ SharedMetrics.drawdownList [1, 11/10, 21/20, 6/5], (-1 : ℚ)/22 ≤ x) ∧
     QuantB.max_drawdown [1, 11/10, 21/20, 6/5] = some ((-1 : ℚ)/22)) :=
  c8_drawdown_conventions_amended.2.2 [1, 11/10, 21/20, 6/5] ((-1 : ℚ)/22)
    (by simp)
    (by norm_num [SharedMetrics.calculate_max_drawdown, SharedMetrics.drawdownList,
      SharedMetrics.cummaxList, SharedMetrics.cummaxFrom, SharedMetrics.listMin])

namespace PandasR

/-- Mean of a real series; pandas mean of an empty series is NaN, but no
function below consumes the mean of an empty list. -/
noncomputable def listMean (xs : List ℝ) : ℝ := xs.sum / xs.length

/-- pandas Series.std(ddof=1): NaN (none) with fewer than two observations,
else the sample standard deviation. -/
noncomputable def pandasStd (xs : List ℝ) : Option ℝ :=
  if xs.length ≤ 1 then Option.none
  else some (Real.sqrt ((xs.map (fun x => (x - listMean xs) ^ 2)).sum /
    ((xs.length : ℝ) - 1)))

end PandasR

namespace SharedMetrics

/-- calculate_sharpe_ratio of shared/metrics.py.  pandas semantics: on an
empty or single-element series the std is NaN, the `std == 0` test is False
against NaN and the result is NaN (none); when the std is a number the
function returns 0.0 if it is zero, else the annualized ratio. -/
noncomputable def calculate_sharpe_ratio (rs : List ℝ) (rf : ℝ) : Option ℝ :=
  match PandasR.pandasStd rs with
  | Option.none => Option.none
  | some s =>
      if s = 0 then some 0
      else some ((PandasR.listMean rs - rf) / s * Real.sqrt 252)

/-- calculate_sortino_ratio of shared/metrics.py: the downside returns are the
returns strictly below target; the guard `downside_std == 0 or
pd.isna(downside_std)` returns 0.0, covering both the zero and the NaN (none)
case, so the result is always a number. -/
noncomputable def calculate_sortino_ratio (rs : List ℝ) (rf target : ℝ) : ℝ :=
  match PandasR.pandasStd (rs.filter (fun x => decide (x < target))) with
  | Option.none => 0
  | some s =>
      if s = 0 then 0
      else (PandasR.listMean rs - rf) / s * Real.sqrt 252

end SharedMetrics

namespace QuantB

/-- _sharpe of the portfolio engine: NaN (none) on empty input; the annual
risk-free rate is converted to a daily rate via (1+rf)^(1/252)-1; excess-return
mean over excess-return sample std (ddof=1), annualized by sqrt(252); returns
NaN — not 0 — when that std is zero or NaN. -/
noncomputable def sharpe (rs : List ℝ) (rf_annual : ℝ) : Option ℝ :=
  if rs = [] then Option.none
  else
    match PandasR.pandasStd
        (rs.map (fun x => x - ((1 + rf_annual) ^ ((1 : ℝ) / 252) - 1))) with
    | Option.none => Option.none
    | some v =>
        if v = 0 then Option.none
        else some (PandasR.listMean
            (rs.map (fun x => x - ((1 + rf_annual) ^ ((1 : ℝ) / 252) - 1))) / v *
          Real.sqrt 252)

end QuantB

/-- C4: Sharpe-ratio definition (the portfolio-engine `_sharpe` the spec
describes).  On the empty series it returns NaN (none); on a non-empty series
whose excess-return sample std (ddof=1) is a non-zero number v, it returns the
mean of the excess returns (returns minus the daily rate (1+rf)^(1/252)-1)
divided by v and multiplied by sqrt(252). -/
theorem c4_sharpe_definition :
    (∀ rf : ℝ, QuantB.sharpe [] rf = Option.none) ∧
    ∀ (rs : List ℝ) (rf v : ℝ), rs ≠ [] →
      PandasR.pandasStd (rs.map (fun x => x - ((1 + rf) ^ ((1 : ℝ) / 252) - 1))) =
        some v →
      v ≠ 0 →
      QuantB.sharpe rs rf =
        some (PandasR.listMean
            (rs.map (fun x => x - ((1 + rf) ^ ((1 : ℝ) / 252) - 1))) / v *
          Real.sqrt 252) := by
  refine ⟨fun rf => rfl, fun rs rf v hne hstd hv => ?_⟩
  rw [QuantB.sharpe, if_neg hne, hstd]
  simp only [if_neg hv]

theorem c4_sharpe_definition_witness :
    QuantB.sharpe [0, 1/2] 0 =
      some (PandasR.listMean (([0, 1/2] : List ℝ).map
          (fun x => x - ((1 + 0) ^ ((1 : ℝ) / 252) - 1))) / Real.sqrt (1/8) *
        Real.sqrt 252) := by
  have hrf : ((1 : ℝ) + 0) ^ ((1 : ℝ) / 252) - 1 = 0 := by
    norm_num [Real.one_rpow]
  have hmap : (([0, 1/2] : List ℝ).map
      (fun x => x - ((1 + 0) ^ ((1 : ℝ) / 252) - 1))) = [0, 1/2] := by
    simp [hrf]
  have hstd : PandasR.pandasStd (([0, 1/2] : List ℝ).map
      (fun x => x - ((1 + 0) ^ ((1 : ℝ) / 252) - 1))) = some (Real.sqrt (1/8)) := by
    rw [hmap, PandasR.pandasStd, if_neg (by norm_num)]
    congr 1
    norm_num [PandasR.listMean]
  exact c4_sharpe_definition.2 [0, 1/2] 0 (Real.sqrt (1/8)) (by simp) hstd
    (ne_of_gt (Real.sqrt_pos.mpr (by norm_num)))

/-- C5 counterexample: on the constant return series [0.01, 0.01] (whose
excess-return standard deviation is exactly 0) with zero risk-free rate, the
portfolio-engine `_sharpe` returns NaN (none) rather than the 0.0 the claim
states for every sharpeRatio variant. -/
theorem c5_zero_variance_cex :
    PandasR.pandasStd (([1/100, 1/100] : List ℝ).map
        (fun x => x - ((1 + 0) ^ ((1 : ℝ) / 252) - 1))) = some 0 ∧
    QuantB.sharpe [1/100, 1/100] 0 = Option.none ∧
    QuantB.sharpe [1/100, 1/100] 0 ≠ some 0 := by
  have hrf : ((1 : ℝ) + 0) ^ ((1 : ℝ) / 252) - 1 = 0 := by
    norm_num [Real.one_rpow]
  have hmap : (([1/100, 1/100] : List ℝ).map
      (fun x => x - ((1 + 0) ^ ((1 : ℝ) / 252) - 1))) = [1/100, 1/100] := by
    simp [hrf]
  have hstd : PandasR.pandasStd (([1/100, 1/100] : List ℝ).map
      (fun x => x - ((1 + 0) ^ ((1 : ℝ) / 252) - 1))) = some 0 := by
    rw [hmap, PandasR.pandasStd, if_neg (by norm_num)]
    rw [show ((([1/100, 1/100] : List ℝ)).map
        (fun x => (x - PandasR.listMean [1/100, 1/100]) ^ 2)).sum /
        ((([1/100, 1/100] : List ℝ).length : ℝ) - 1) = 0 by
      norm_num [PandasR.listMean]]
    rw [Real.sqrt_zero]
  have hsharpe : QuantB.sharpe [1/100, 1/100] 0 = Option.none := by
    rw [QuantB.sharpe, if_neg (by simp), hstd]
    simp
  exact ⟨hstd, hsharpe, by rw [hsharpe]; simp⟩

/-- C5 (amended): the metrics-library calculate_sharpe_ratio returns exactly
0.0 when the sample standard deviation is exactly 0, and
calculate_sortino_ratio returns exactly 0.0 when the downside deviation is 0
or undefined — neither raises nor returns NaN there; the portfolio-engine
`_sharpe`, however, deliberately returns NaN (none), not 0.0, when the
excess-return standard deviation is zero. -/
theorem c5_zero_variance_amended :
    (∀ (rs : List ℝ) (rf : ℝ), PandasR.pandasStd rs = some 0 →
      SharedMetrics.calculate_sharpe_ratio rs rf = some 0) ∧
    (∀ (rs : List ℝ) (rf target : ℝ),
      (PandasR.pandasStd (rs.filter (fun x => decide (x < target))) = Option.none ∨
        PandasR.pandasStd (rs.filter (fun x => decide (x < target))) = some 0) →
      SharedMetrics.calculate_sortino_ratio rs rf target = 0) ∧
    (∀ (rs : List ℝ) (rf : ℝ),
      PandasR.pandasStd (rs.map (fun x => x - ((1 + rf) ^ ((1 : ℝ) / 252) - 1))) =
        some 0 →
      QuantB.sharpe rs rf = Option.none) := by
  refine ⟨fun rs rf h => ?_, fun rs rf target h => ?_, fun rs rf h => ?_⟩
  · rw [SharedMetrics.calculate_sharpe_ratio, h]
    simp
  · rcases h with h | h
    · rw [SharedMetrics.calculate_sortino_ratio, h]
    · rw [SharedMetrics.calculate_sortino_ratio, h]
      simp
  · by_cases hne : rs = []
    · rw [QuantB.sharpe, if_pos hne]
    · rw [QuantB.sharpe, if_neg hne, h]
      simp

theorem c5_zero_variance_amended_witness :
    SharedMetrics.calculate_sharpe_ratio [1/100, 1/100] 5 = some 0 ∧
    SharedMetrics.calculate_sortino_ratio [1, 2] 0 0 = 0 := by
  have hstd : PandasR.pandasStd ([1/100, 1/100] : List ℝ) = some 0 := by
    rw [PandasR.pandasStd, if_neg (by norm_num)]
    rw [show ((([1/100, 1/100] : List ℝ)).map
        (fun x => (x - PandasR.listMean [1/100, 1/100]) ^ 2)).sum /
        ((([1/100, 1/100] : List ℝ).length : ℝ) - 1) = 0 by
      norm_num [PandasR.listMean]]
    rw [Real.sqrt_zero]
  have hfil : ([1, 2] : List ℝ).filter (fun x => decide (x < 0)) = [] := by
    rw [show (([1, 2] : List ℝ).filter (fun x => decide (x < 0))) =
        ([2] : List ℝ).filter (fun x => decide (x < 0)) from by
      rw [List.filter_cons]
      simp only [decide_eq_false (by norm_num : ¬ (1 : ℝ) < 0)]
      simp]
    rw [List.filter_cons]
    simp only [decide_eq_false (by norm_num : ¬ (2 : ℝ) < 0)]
    simp
  exact ⟨c5_zero_variance_amended.1 [1/100, 1/100] 5 hstd,
    c5_zero_variance_amended.2.1 [1, 2] 0 0 (Or.inl (by rw [hfil]; rfl))⟩

namespace Report

/-- Round-half-even on exact rationals: the rounding of Python's fixed-point
formatting, applied to the scaled value (the fixtures below sit far from ties,
where binary-float and exact rounding agree). -/
def halfEven (y : ℚ) : ℤ :=
  if y - (⌊y⌋ : ℚ) < 1/2 then ⌊y⌋
  else if (1 : ℚ)/2 < y - (⌊y⌋ : ℚ) then ⌊y⌋ + 1
  else if ⌊y⌋ % 2 = 0 then ⌊y⌋ else ⌊y⌋ + 1

/-- The digits "%.df" prints for a signed count `n` of 10^-d units. -/
def decString (n : ℤ) (d : ℕ) : String :=
  let a := n.natAbs
  let fs := toString (a % 10 ^ d)
  (if n < 0 then "-" else "") ++ toString (a / 10 ^ d) ++
    (if d = 0 then "" else "." ++ String.mk (List.replicate (d - fs.length) '0') ++ fs)

/-- Right-justify in a field of width w (Python's numeric format default). -/
def padLeft (s : String) (w : ℕ) : String :=
  String.mk (List.replicate (w - s.length) ' ') ++ s

/-- Left-justify in a field of width w (Python's "{:6s}"). -/
def padRight (s : String) (w : ℕ) : String :=
  s ++ String.mk (List.replicate (w - s.length) ' ')

/-- Python "{x:w.df}". -/
def formatFixed (x : ℚ) (w d : ℕ) : String :=
  padLeft (decString (halfEven (x * 10 ^ d)) d) w

/-- Python "{x:w.d%}": multiply by 100, fixed-point with d decimals, append
'%', right-justify the whole field to width w. -/
def formatPercent (x : ℚ) (w d : ℕ) : String :=
  padLeft (decString (halfEven (x * 100 * 10 ^ d)) d ++ "%") w

/-- Python str.split(sep) for a one-character separator, over the characters. -/
def splitOnChar (c : Char) (l : List Char) : List (List Char) :=
  l.foldr (fun ch acc => match acc with
    | [] => [[ch]]
    | cur :: rest => if ch = c then [] :: cur :: rest else (ch :: cur) :: rest) [[]]

def startsWithChars : List Char → List Char → Bool
  | [], _ => true
  | _ :: _, [] => false
  | p :: ps, x :: xs => p == x && startsWithChars ps xs

/-- Python's `pat in s` substring test, over the characters. -/
def containsChars (pat : List Char) : List Char → Bool
  | [] => startsWithChars pat []
  | x :: xs => startsWithChars pat (x :: xs) || containsChars pat xs

/-- Python str.strip(), over the characters. -/
def stripChars (l : List Char) : List Char :=
  ((l.dropWhile (fun c => c.isWhitespace)).reverse.dropWhile
      (fun c => c.isWhitespace)).reverse

def pySplit (sep : Char) (s : String) : List String :=
  (splitOnChar sep s.data).map String.mk

def pyStrip (s : String) : String := String.mk (stripChars s.data)

def pyContains (s pat : String) : Bool := containsChars pat.data s.data

/-- One OPEN / CLOSE data line of generate_report:
f-string "{t:6s} | Open: {o:10.4f} | Close: {c:10.4f}". -/
def priceLine (t : String) (o c : ℚ) : String :=
  padRight t 6 ++ " | Open: " ++ formatFixed o 10 4 ++ " | Close: " ++
    formatFixed c 10 4

/-- One RISK METRICS data line:
f-string "{t:6s} | Vol (ann.): {vol:8.2%} | Max Drawdown: {mdd:8.2%}". -/
def riskLine (t : String) (vol mdd : ℚ) : String :=
  padRight t 6 ++ " | Vol (ann.): " ++ formatPercent vol 8 2 ++
    " | Max Drawdown: " ++ formatPercent mdd 8 2

/-- The BONUS equal-weight portfolio line. -/
def portfolioLine (vol mdd : ℚ) : String :=
  "Portfolio | Vol (ann.): " ++ formatPercent vol 8 2 ++
    " | Max Drawdown: " ++ formatPercent mdd 8 2

/-- close.pct_change().dropna() of one close column. -/
def pctChangeList (ps : List ℚ) : List ℚ :=
  List.zipWith (fun prev next => next / prev - 1) ps ps.tail

/-- (1.0 + returns).cumprod(). -/
def cumprodFrom (acc : ℚ) : List ℚ → List ℚ
  | [] => []
  | r :: rs => acc * (1 + r) :: cumprodFrom (acc * (1 + r)) rs

/-- max_drawdown of scripts/daily_report.py: build the cumulative value series
from the RETURNS, then min of value/cummax - 1; NaN (none) on empty input. -/
def max_drawdown (rs : List ℚ) : Option ℚ :=
  if rs = [] then Option.none
  else SharedMetrics.listMin (SharedMetrics.drawdownList (cumprodFrom 1 rs))

/-- annualized_vol of scripts/daily_report.py: std(ddof=1) * sqrt(252); NaN
(none) on an empty — and, through the pandas std, on a single-element —
series. -/
noncomputable def annualized_vol (rs : List ℝ) : Option ℝ :=
  (PandasR.pandasStd rs).map (fun s => s * Real.sqrt 252)

/-- (returns * w).sum(axis=1) with the equal weights np.ones(n)/n, one value
per row (date) of the return table. -/
def eqWeightPortRets (n : ℕ) (rows : List (List ℚ)) : List ℚ :=
  rows.map (fun r => (r.map (fun x => x * (1 / (n : ℚ)))).sum)

/-- main.py "prices" branch: strip the line, require "Open:" in it, split on
'|', expect exactly 3 fields; the ticker is field 0 stripped, the open and
close are the text after the first ':' of fields 1 and 2, stripped.  (The code
indexes split(':')[1] unconditionally; getD "" stands in for the
cannot-happen miss.) -/
def parsePriceLine (line0 : String) : Option (String × String × String) :=
  let line := pyStrip line0
  if pyContains line "Open:" then
    match pySplit '|' line with
    | [a, b, c] =>
        some (pyStrip a, pyStrip ((pySplit ':' b).getD 1 ""),
          pyStrip ((pySplit ':' c).getD 1 ""))
    | _ => Option.none
  else Option.none

/-- main.py "risk" branch, same field layout keyed on "Vol (ann.):". -/
def parseRiskLine (line0 : String) : Option (String × String × String) :=
  let line := pyStrip line0
  if pyContains line "Vol (ann.):" then
    match pySplit '|' line with
    | [a, b, c] =>
        some (pyStrip a, pyStrip ((pySplit ':' b).getD 1 ""),
          pyStrip ((pySplit ':' c).getD 1 ""))
    | _ => Option.none
  else Option.none

/-- main.py "portfolio" branch, keyed on "Portfolio", keeping vol and mdd. -/
def parsePortfolioLine (line0 : String) : Option (String × String) :=
  let line := pyStrip line0
  if pyContains line "Portfolio" then
    match pySplit '|' line with
    | [_, b, c] =>
        some (pyStrip ((pySplit ':' b).getD 1 ""),
          pyStrip ((pySplit ':' c).getD 1 ""))
    | _ => Option.none
  else Option.none

def digitVal (ch : Char) : Option ℕ :=
  if ch.isDigit then some (ch.toNat - 48) else Option.none

def natOfDigits (l : List Char) : Option ℕ :=
  l.foldl (fun acc ch => match acc, digitVal ch with
    | some a, some d => some (a * 10 + d)
    | _, _ => Option.none) (if l = [] then Option.none else some 0)

/-- Reading a fixed-point decimal field back as (mantissa, decimals):
"-8.82" becomes (-882, 2); the denoted value is mantissa / 10^decimals. -/
def decStrToMantissa (s : String) : Option (ℤ × ℕ) :=
  let neg := startsWithChars "-".data s.data
  let s1 := if neg then s.data.drop 1 else s.data
  match splitOnChar '.' s1 with
  | [ip] => (natOfDigits ip).map
      (fun a => (if neg then -(a : ℤ) else (a : ℤ), 0))
  | [ip, fp] =>
      match natOfDigits ip, natOfDigits fp with
      | some a, some b =>
          some (if neg then -((a * 10 ^ fp.length + b : ℕ) : ℤ)
                else ((a * 10 ^ fp.length + b : ℕ) : ℤ), fp.length)
      | _, _ => Option.none
  | _ => Option.none

/-- Reading a percent field back: strip the trailing '%', read the decimal. -/
def pctStrToMantissa (s : String) : Option (ℤ × ℕ) :=
  if startsWithChars "%".data s.data.reverse
  then decStrToMantissa (String.mk s.data.dropLast) else Option.none

/-- The rational a mantissa pair denotes. -/
def mantissaVal (m : ℤ × ℕ) : ℚ := (m.1 : ℚ) / 10 ^ m.2

/-- Value denoted by a parsed price field. -/
def priceFieldVal (s : String) : Option ℚ := (decStrToMantissa s).map mantissaVal

/-- Value denoted by a parsed percent field (divide the percentage by 100). -/
def pctFieldVal (s : String) : Option ℚ :=
  (pctStrToMantissa s).map (fun m => mantissaVal m / 100)

/-- Synthetic close-price fixtures: three tickers, four days, chosen so the
pipeline's volatility and drawdown are exactly representable. -/
def closesAAPL : List ℚ := [100, 109, 10573/100, 993862/10000]

def closesMSFT : List ℚ := [100, 118, 11092/100, 976096/10000]

def closesGOOGL : List ℚ := [200, 211, 209945/1000, 2057461/10000]

/-- Open-price fixtures for the latest trading day. -/
def openAAPL : ℚ := 991234/10000

def openMSFT : ℚ := 193/2

def openGOOGL : ℚ := 2041/10

/-- The return table (rows = dates, columns = the three tickers), the
transpose of the per-ticker return series. -/
def returnRows : List (List ℚ) :=
  [[9/100, 18/100, 11/200], [-3/100, -6/100, -1/200], [-6/100, -12/100, -2/100]]

end Report

namespace Report

theorem halfEven_int (y : ℚ) (f : ℤ) (hy : y = (f : ℚ)) : halfEven y = f := by
  subst hy
  rw [halfEven, Int.floor_intCast, if_pos (by norm_num)]

theorem halfEven_up (y : ℚ) (f : ℤ) (hf : ⌊y⌋ = f) (h : 1/2 < y - (f : ℚ)) :
    halfEven y = f + 1 := by
  rw [halfEven, hf, if_neg (by linarith), if_pos h]

theorem returns_aapl : pctChangeList closesAAPL = [9/100, -3/100, -6/100] := by
  norm_num [pctChangeList, closesAAPL, List.zipWith]

theorem returns_msft : pctChangeList closesMSFT = [18/100, -6/100, -12/100] := by
  norm_num [pctChangeList, closesMSFT, List.zipWith]

theorem returns_googl : pctChangeList closesGOOGL = [11/200, -1/200, -2/100] := by
  norm_num [pctChangeList, closesGOOGL, List.zipWith]

theorem mdd_aapl : Report.max_drawdown [9/100, -3/100, -6/100] =
    some (-441/5000) := by
  rw [Report.max_drawdown, if_neg (by simp)]
  norm_num [cumprodFrom, SharedMetrics.listMin,
    SharedMetrics.drawdownList, SharedMetrics.cummaxList, SharedMetrics.cummaxFrom]

theorem mdd_msft : Report.max_drawdown [18/100, -6/100, -12/100] =
    some (-108/625) := by
  rw [Report.max_drawdown, if_neg (by simp)]
  norm_num [cumprodFrom, SharedMetrics.listMin,
    SharedMetrics.drawdownList, SharedMetrics.cummaxList, SharedMetrics.cummaxFrom]

theorem mdd_googl : Report.max_drawdown [11/200, -1/200, -2/100] =
    some (-249/10000) := by
  rw [Report.max_drawdown, if_neg (by simp)]
  norm_num [cumprodFrom, SharedMetrics.listMin,
    SharedMetrics.drawdownList, SharedMetrics.cummaxList, SharedMetrics.cummaxFrom]

theorem port_rets_eq : eqWeightPortRets 3 returnRows = [13/120, -19/600, -1/15] := by
  norm_num [eqWeightPortRets, returnRows]

theorem mdd_port : Report.max_drawdown [13/120, -19/600, -1/15] =
    some (-433/4500) := by
  rw [Report.max_drawdown, if_neg (by simp)]
  norm_num [cumprodFrom, SharedMetrics.listMin,
    SharedMetrics.drawdownList, SharedMetrics.cummaxList, SharedMetrics.cummaxFrom]

theorem annualized_vol_eq_of_sq (xs : List ℝ) (q : ℝ) (hq : 0 ≤ q)
    (hlen : ¬ xs.length ≤ 1)
    (hvar : (xs.map (fun x => (x - PandasR.listMean xs) ^ 2)).sum /
        ((xs.length : ℝ) - 1) * 252 = q ^ 2) :
    annualized_vol xs = some q := by
  rw [annualized_vol, PandasR.pandasStd, if_neg hlen, Option.map_some']
  have hv0 : 0 ≤ (xs.map (fun x => (x - PandasR.listMean xs) ^ 2)).sum /
      ((xs.length : ℝ) - 1) := by nlinarith [sq_nonneg q]
  rw [← Real.sqrt_mul hv0 252, hvar, Real.sqrt_sq hq]

theorem vol_aapl : annualized_vol
    ((pctChangeList closesAAPL).map (fun q => (q : ℝ))) = some (126/100) := by
  rw [returns_aapl,
    show (([9/100, -3/100, -6/100] : List ℚ).map (fun q => (q : ℝ))) =
      [9/100, -3/100, -6/100] from by norm_num]
  exact annualized_vol_eq_of_sq _ _ (by norm_num) (by norm_num)
    (by norm_num [PandasR.listMean])

theorem vol_msft : annualized_vol
    ((pctChangeList closesMSFT).map (fun q => (q : ℝ))) = some (252/100) := by
  rw [returns_msft,
    show (([18/100, -6/100, -12/100] : List ℚ).map (fun q => (q : ℝ))) =
      [18/100, -6/100, -12/100] from by norm_num]
  exact annualized_vol_eq_of_sq _ _ (by norm_num) (by norm_num)
    (by norm_num [PandasR.listMean])

theorem vol_googl : annualized_vol
    ((pctChangeList closesGOOGL).map (fun q => (q : ℝ))) = some (63/100) := by
  rw [returns_googl,
    show (([11/200, -1/200, -2/100] : List ℚ).map (fun q => (q : ℝ))) =
      [11/200, -1/200, -2/100] from by norm_num]
  exact annualized_vol_eq_of_sq _ _ (by norm_num) (by norm_num)
    (by norm_num [PandasR.listMean])

theorem vol_port : annualized_vol
    ((eqWeightPortRets 3 returnRows).map (fun q => (q : ℝ))) = some (147/100) := by
  rw [port_rets_eq,
    show (([13/120, -19/600, -1/15] : List ℚ).map (fun q => (q : ℝ))) =
      [13/120, -19/600, -1/15] from by norm_num]
  exact annualized_vol_eq_of_sq _ _ (by norm_num) (by norm_num)
    (by norm_num [PandasR.listMean])

end Report

namespace Report

theorem parse_price_aapl :
    parsePriceLine (priceLine "AAPL" openAAPL (993862/10000)) =
      some ("AAPL", "99.1234", "99.3862") := by
  simp only [priceLine, formatFixed, openAAPL]
  rw [halfEven_int ((991234 : ℚ)/10000 * 10 ^ 4) 991234 (by norm_num),
    halfEven_int ((993862 : ℚ)/10000 * 10 ^ 4) 993862 (by norm_num)]
  rfl

theorem parse_price_msft :
    parsePriceLine (priceLine "MSFT" openMSFT (976096/10000)) =
      some ("MSFT", "96.5000", "97.6096") := by
  simp only [priceLine, formatFixed, openMSFT]
  rw [halfEven_int ((193 : ℚ)/2 * 10 ^ 4) 965000 (by norm_num),
    halfEven_int ((976096 : ℚ)/10000 * 10 ^ 4) 976096 (by norm_num)]
  rfl

theorem parse_price_googl :
    parsePriceLine (priceLine "GOOGL" openGOOGL (2057461/10000)) =
      some ("GOOGL", "204.1000", "205.7461") := by
  simp only [priceLine, formatFixed, openGOOGL]
  rw [halfEven_int ((2041 : ℚ)/10 * 10 ^ 4) 2041000 (by norm_num),
    halfEven_int ((2057461 : ℚ)/10000 * 10 ^ 4) 2057461 (by norm_num)]
  rfl

theorem parse_risk_aapl :
    parseRiskLine (riskLine "AAPL" (126/100) (-441/5000)) =
      some ("AAPL", "126.00%", "-8.82%") := by
  simp only [riskLine, formatPercent]
  rw [halfEven_int ((126 : ℚ)/100 * 100 * 10 ^ 2) 12600 (by norm_num),
    halfEven_int ((-441 : ℚ)/5000 * 100 * 10 ^ 2) (-882) (by norm_num)]
  rfl

theorem parse_risk_msft :
    parseRiskLine (riskLine "MSFT" (252/100) (-108/625)) =
      some ("MSFT", "252.00%", "-17.28%") := by
  simp only [riskLine, formatPercent]
  rw [halfEven_int ((252 : ℚ)/100 * 100 * 10 ^ 2) 25200 (by norm_num),
    halfEven_int ((-108 : ℚ)/625 * 100 * 10 ^ 2) (-1728) (by norm_num)]
  rfl

theorem parse_risk_googl :
    parseRiskLine (riskLine "GOOGL" (63/100) (-249/10000)) =
      some ("GOOGL", "63.00%", "-2.49%") := by
  simp only [riskLine, formatPercent]
  rw [halfEven_int ((63 : ℚ)/100 * 100 * 10 ^ 2) 6300 (by norm_num),
    halfEven_int ((-249 : ℚ)/10000 * 100 * 10 ^ 2) (-249) (by norm_num)]
  rfl

theorem parse_port_line :
    parsePortfolioLine (portfolioLine (147/100) (-433/4500)) =
      some ("147.00%", "-9.62%") := by
  simp only [portfolioLine, formatPercent]
  rw [halfEven_int ((147 : ℚ)/100 * 100 * 10 ^ 2) 14700 (by norm_num),
    halfEven_up ((-433 : ℚ)/4500 * 100 * 10 ^ 2) (-963)
      (by rw [Int.floor_eq_iff]; constructor <;> norm_num) (by norm_num)]
  rfl

theorem price_val_aapl_open : priceFieldVal "99.1234" = some openAAPL := by
  rw [priceFieldVal,
    show decStrToMantissa "99.1234" = some (991234, 4) from rfl,
    Option.map_some']
  norm_num [mantissaVal, openAAPL]

theorem price_val_aapl_close : priceFieldVal "99.3862" = some (993862/10000) := by
  rw [priceFieldVal,
    show decStrToMantissa "99.3862" = some (993862, 4) from rfl,
    Option.map_some']
  norm_num [mantissaVal]

theorem price_val_msft_open : priceFieldVal "96.5000" = some openMSFT := by
  rw [priceFieldVal,
    show decStrToMantissa "96.5000" = some (965000, 4) from rfl,
    Option.map_some']
  norm_num [mantissaVal, openMSFT]

theorem price_val_msft_close : priceFieldVal "97.6096" = some (976096/10000) := by
  rw [priceFieldVal,
    show decStrToMantissa "97.6096" = some (976096, 4) from rfl,
    Option.map_some']
  norm_num [mantissaVal]

theorem price_val_googl_open : priceFieldVal "204.1000" = some openGOOGL := by
  rw [priceFieldVal,
    show decStrToMantissa "204.1000" = some (2041000, 4) from rfl,
    Option.map_some']
  norm_num [mantissaVal, openGOOGL]

theorem price_val_googl_close : priceFieldVal "205.7461" = some (2057461/10000) := by
  rw [priceFieldVal,
    show decStrToMantissa "205.7461" = some (2057461, 4) from rfl,
    Option.map_some']
  norm_num [mantissaVal]

theorem pct_val_vol_aapl : pctFieldVal "126.00%" = some (126/100) := by
  rw [pctFieldVal,
    show pctStrToMantissa "126.00%" = some (12600, 2) from rfl,
    Option.map_some']
  norm_num [mantissaVal]

theorem pct_val_mdd_aapl : pctFieldVal "-8.82%" = some (-441/5000) := by
  rw [pctFieldVal,
    show pctStrToMantissa "-8.82%" = some (-882, 2) from rfl,
    Option.map_some']
  norm_num [mantissaVal]

theorem pct_val_vol_msft : pctFieldVal "252.00%" = some (252/100) := by
  rw [pctFieldVal,
    show pctStrToMantissa "252.00%" = some (25200, 2) from rfl,
    Option.map_some']
  norm_num [mantissaVal]

theorem pct_val_mdd_msft : pctFieldVal "-17.28%" = some (-108/625) := by
  rw [pctFieldVal,
    show pctStrToMantissa "-17.28%" = some (-1728, 2) from rfl,
    Option.map_some']
  norm_num [mantissaVal]

theorem pct_val_vol_googl : pctFieldVal "63.00%" = some (63/100) := by
  rw [pctFieldVal,
    show pctStrToMantissa "63.00%" = some (6300, 2) from rfl,
    Option.map_some']
  norm_num [mantissaVal]

theorem pct_val_mdd_googl : pctFieldVal "-2.49%" = some (-249/10000) := by
  rw [pctFieldVal,
    show pctStrToMantissa "-2.49%" = some (-249, 2) from rfl,
    Option.map_some']
  norm_num [mantissaVal]

theorem pct_val_vol_port : pctFieldVal "147.00%" = some (147/100) := by
  rw [pctFieldVal,
    show pctStrToMantissa "147.00%" = some (14700, 2) from rfl,
    Option.map_some']
  norm_num [mantissaVal]

theorem pct_val_mdd_port : pctFieldVal "-9.62%" = some (-481/5000) := by
  rw [pctFieldVal,
    show pctStrToMantissa "-9.62%" = some (-962, 2) from rfl,
    Option.map_some']
  norm_num [mantissaVal]

end Report

/-- C9: Report text round-trip.  For the three fixed symbols and the synthetic
close/open fixtures, the reporting pipeline (pct-change returns, annualized
volatility, max drawdown, equal-weight portfolio rollup) produces the stated
exact values; the data lines generated with the code's exact field layout
(ticker padded to 6 characters, prices "%10.4f", percentages "%8.2%"), parsed
by main.py's '|'-splitting field logic, return the ticker and value fields
whose denoted values equal the pipeline values up to the stated rounding —
exactly for every field here except the portfolio drawdown, which is recovered
to within half of the last printed percent decimal (1/20000). -/
theorem c9_report_round_trip :
    Report.pctChangeList Report.closesAAPL = [9/100, -3/100, -6/100] ∧
    Report.pctChangeList Report.closesMSFT = [18/100, -6/100, -12/100] ∧
    Report.pctChangeList Report.closesGOOGL = [11/200, -1/200, -2/100] ∧
    Report.closesAAPL.getLast? = some (993862/10000) ∧
    Report.closesMSFT.getLast? = some (976096/10000) ∧
    Report.closesGOOGL.getLast? = some (2057461/10000) ∧
    Report.annualized_vol ((Report.pctChangeList Report.closesAAPL).map
      (fun q => (q : ℝ))) = some (126/100) ∧
    Report.annualized_vol ((Report.pctChangeList Report.closesMSFT).map
      (fun q => (q : ℝ))) = some (252/100) ∧
    Report.annualized_vol ((Report.pctChangeList Report.closesGOOGL).map
      (fun q => (q : ℝ))) = some (63/100) ∧
    Report.max_drawdown (Report.pctChangeList Report.closesAAPL) =
      some (-441/5000) ∧
    Report.max_drawdown (Report.pctChangeList Report.closesMSFT) =
      some (-108/625) ∧
    Report.max_drawdown (Report.pctChangeList Report.closesGOOGL) =
      some (-249/10000) ∧
    Report.parsePriceLine (Report.priceLine "AAPL" Report.openAAPL
      (993862/10000)) = some ("AAPL", "99.1234", "99.3862") ∧
    Report.priceFieldVal "99.1234" = some Report.openAAPL ∧
    Report.priceFieldVal "99.3862" = some (993862/10000) ∧
    Report.parsePriceLine (Report.priceLine "MSFT" Report.openMSFT
      (976096/10000)) = some ("MSFT", "96.5000", "97.6096") ∧
    Report.priceFieldVal "96.5000" = some Report.openMSFT ∧
    Report.priceFieldVal "97.6096" = some (976096/10000) ∧
    Report.parsePriceLine (Report.priceLine "GOOGL" Report.openGOOGL
      (2057461/10000)) = some ("GOOGL", "204.1000", "205.7461") ∧
    Report.priceFieldVal "204.1000" = some Report.openGOOGL ∧
    Report.priceFieldVal "205.7461" = some (2057461/10000) ∧
    Report.parseRiskLine (Report.riskLine "AAPL" (126/100) (-441/5000)) =
      some ("AAPL", "126.00%", "-8.82%") ∧
    Report.pctFieldVal "126.00%" = some (126/100) ∧
    Report.pctFieldVal "-8.82%" = some (-441/5000) ∧
    Report.parseRiskLine (Report.riskLine "MSFT" (252/100) (-108/625)) =
      some ("MSFT", "252.00%", "-17.28%") ∧
    Report.pctFieldVal "252.00%" = some (252/100) ∧
    Report.pctFieldVal "-17.28%" = some (-108/625) ∧
    Report.parseRiskLine (Report.riskLine "GOOGL" (63/100) (-249/10000)) =
      some ("GOOGL", "63.00%", "-2.49%") ∧
    Report.pctFieldVal "63.00%" = some (63/100) ∧
    Report.pctFieldVal "-2.49%" = some (-249/10000) ∧
    Report.eqWeightPortRets 3 Report.returnRows = [13/120, -19/600, -1/15] ∧
    Report.annualized_vol ((Report.eqWeightPortRets 3 Report.returnRows).map
      (fun q => (q : ℝ))) = some (147/100) ∧
    Report.max_drawdown (Report.eqWeightPortRets 3 Report.returnRows) =
      some (-433/4500) ∧
    Report.parsePortfolioLine (Report.portfolioLine (147/100) (-433/4500)) =
      some ("147.00%", "-9.62%") ∧
    Report.pctFieldVal "147.00%" = some (147/100) ∧
    Report.pctFieldVal "-9.62%" = some (-481/5000) ∧
    |(-481/5000 : ℚ) - (-433/4500)| ≤ 1/20000 := by
  refine ⟨Report.returns_aapl, Report.returns_msft, Report.returns_googl,
    rfl, rfl, rfl,
    Report.vol_aapl, Report.vol_msft, Report.vol_googl,
    ?_, ?_, ?_,
    Report.parse_price_aapl, Report.price_val_aapl_open, Report.price_val_aapl_close,
    Report.parse_price_msft, Report.price_val_msft_open, Report.price_val_msft_close,
    Report.parse_price_googl, Report.price_val_googl_open, Report.price_val_googl_close,
    Report.parse_risk_aapl, Report.pct_val_vol_aapl, Report.pct_val_mdd_aapl,
    Report.parse_risk_msft, Report.pct_val_vol_msft, Report.pct_val_mdd_msft,
    Report.parse_risk_googl, Report.pct_val_vol_googl, Report.pct_val_mdd_googl,
    Report.port_rets_eq, Report.vol_port, ?_,
    Report.parse_port_line, Report.pct_val_vol_port, Report.pct_val_mdd_port,
    by rw [abs_le]; constructor <;> norm_num⟩
  · rw [Report.returns_aapl]; exact Report.mdd_aapl
  · rw [Report.returns_msft]; exact Report.mdd_msft
  · rw [Report.returns_googl]; exact Report.mdd_googl
  · rw [Report.port_rets_eq]; exact Report.mdd_port
